import Mathlib

/-
Shallow embedding of the self-healing workflow execution engine:
  * `_execute_self_healing_workflow` and `_regenerate_workflow_steps`
    (src/main.py, lines 541-832), and
  * `ActionExecutor.execute_step` / `ActionExecutor._navigate`
    (src/automation/action_executor.py).

External collaborators (browser, screenshot manager, Azure client) are
modelled as an explicit environment supplying, for each call site, the value
returned or the exception raised there.  Per their own sources,
`ScreenshotManager.capture_step_screenshot` / `capture_error_screenshot`
catch all exceptions internally and return `None`, and
`_regenerate_workflow_steps` catches all its own exceptions; only
`BrowserManager.create_session` re-raises.  The environment nevertheless
allows the step-attempt body to raise (the orchestrator code handles it),
which is a superset of the composed system's behaviours.
Log-only artifacts (screenshot paths, wall-clock timestamps, emoji prefixes
of log strings) are elided from the records; every field a claim observes is
kept with the exact value the source computes.
-/

/-- Result of a Python call that either returns or raises. -/
inductive PyResult (α : Type) where
  | ok (a : α)
  | exn (e : String)
deriving DecidableEq

/-- A step record (the plain dict consumed from the Step Generator);
field defaults model absent keys. -/
structure StepRec where
  action : String := ""
  target : String := ""
  value : String := ""
  description : String := ""
  locator_strategy : String := "auto"
  expected_result : String := "Step completed"
  timeout : Nat := 0
  retry_count : Nat := 0
deriving DecidableEq

/-- `TestPlan` (src/core/models.py): name, description, ordered steps. -/
structure TestPlan where
  name : String := ""
  description : String := ""
  steps : List StepRec := []
deriving DecidableEq

/-- The slice of the session dict the orchestrator core touches:
`session["test_plan"]`, rewritten by `_regenerate_workflow_steps`. -/
structure Session where
  testPlan : TestPlan
deriving DecidableEq

/-- The dict returned by `ActionExecutor.execute_step`; `execution_time_ms`
is an `Option` because several branches of the source omit the key. -/
structure ExecOutcome where
  status : String
  message : String := ""
  error_details : String := ""
  error_type : String := ""
  execution_time_ms : Option Nat := none
  ssl_warning_handled : Bool := false
deriving DecidableEq

/-- One entry of `executed_steps` (the `enhanced_result` dicts of
`_execute_self_healing_workflow`); `attempts_made` is an `Option` because
the synthetic `workflow_error` entry has no such key. -/
structure Outcome where
  step_number : Nat
  action : String
  target : String
  value : String := ""
  status : String
  message : String := ""
  error_details : String := ""
  execution_time_ms : Nat := 0
  attempts_made : Option Nat := none
  workflow_attempt : Nat
deriving DecidableEq

/-- `ExecutionResult` (src/core/models.py), the fields main.py fills. -/
structure ExecutionResult where
  success : Bool
  steps_executed : Nat
  total_steps : Nat
  execution_details : List Outcome
  message : String
deriving DecidableEq

/-- What one step-attempt body (screenshots + `execute_step`, main.py lines
590-668) produces: the executor's returned dict, or an exception raised
inside the per-step-attempt `try`. -/
inductive StepCallRes where
  | ret (o : ExecOutcome)
  | exn (e : String)
deriving DecidableEq

/-- Environment of `_execute_self_healing_workflow`: what each collaborator
call returns, indexed by workflow attempt `w` (1-based), step index `i`
(0-based) and step attempt `a` (1-based).  `regen w = some p` means the
regeneration call after attempt `w` replaced `session["test_plan"]` with
`p`; `none` means any of its silent no-op/swallowed-failure exits. -/
structure OrchEnv where
  createSessionErr : Nat → Option String
  stepCall : Nat → Nat → Nat → StepCallRes
  regen : Nat → Option TestPlan

/-- A record of one dispatch of a step to the Action Executor. -/
structure Dispatch where
  w : Nat
  i : Nat
  a : Nat
  step : StepRec
deriving DecidableEq

/-- main.py lines 579-580: `step['timeout'] = 300000; step['retry_count'] = 3`
before the step-attempt loop. -/
def dispatchStep (s : StepRec) : StepRec :=
  { s with timeout := 300000, retry_count := 3 }

/-- The success `enhanced_result` (main.py lines 610-627). -/
def mkSuccessOutcome (step : StepRec) (o : ExecOutcome) (i a w : Nat) : Outcome :=
  { step_number := i + 1
    action := step.action
    target := step.target
    value := step.value
    status := "success"
    message := o.message
    execution_time_ms := o.execution_time_ms.getD 0
    attempts_made := some a
    workflow_attempt := w }

/-- The failed `enhanced_result` after exhausting step retries with a failed
executor result (main.py lines 646-662). -/
def mkFailedResult (step : StepRec) (o : ExecOutcome) (i a w : Nat) : Outcome :=
  { step_number := i + 1
    action := step.action
    target := step.target
    value := step.value
    status := "failed"
    message := "Step failed after 3 attempts: " ++ o.message
    error_details := o.error_details
    attempts_made := some a
    workflow_attempt := w }

/-- The failed result dict built after an exception on the final step-attempt
(main.py lines 679-693). -/
def mkFailedExn (step : StepRec) (e : String) (i a w : Nat) : Outcome :=
  { step_number := i + 1
    action := step.action
    target := step.target
    value := step.value
    status := "failed"
    message := "Step exception after 3 attempts: " ++ e
    error_details := e
    attempts_made := some a
    workflow_attempt := w }

/-- The inner `while step_attempt < max_step_retries and not step_success`
loop (main.py lines 586-699), recursing on the retries left `rl`
(`a + rl = 3` throughout; entered with `a = 1`, `rl = 2`).  Returns the
single outcome the loop appends, the `step_success` flag, and the trace of
executor dispatches made. -/
def stepAttempts (env : OrchEnv) (w i : Nat) (step : StepRec) :
    Nat → Nat → Outcome × Bool × List Dispatch
  | 0, a =>
    let d : Dispatch := ⟨w, i, a, step⟩
    match env.stepCall w i a with
    | .ret o =>
      if o.status == "success" then
        (mkSuccessOutcome step o i a w, true, [d])
      else (mkFailedResult step o i a w, false, [d])
    | .exn e => (mkFailedExn step e i a w, false, [d])
  | rl' + 1, a =>
    let d : Dispatch := ⟨w, i, a, step⟩
    match env.stepCall w i a with
    | .ret o =>
      if o.status == "success" then
        (mkSuccessOutcome step o i a w, true, [d])
      else
        let r := stepAttempts env w i step rl' (a + 1)
        (r.1, r.2.1, d :: r.2.2)
    | .exn _e =>
      let r := stepAttempts env w i step rl' (a + 1)
      (r.1, r.2.1, d :: r.2.2)

/-- One step of the attempt: mutate the step dict (lines 579-580), then run
the step-attempt loop. -/
def runStep (env : OrchEnv) (w i : Nat) (step0 : StepRec) :
    Outcome × Bool × List Dispatch :=
  stepAttempts env w i (dispatchStep step0) 2 1

/-- Result of the `for i, step in enumerate(test_plan.steps)` loop of one
workflow attempt: the outcomes appended, the final `step_failures` counter,
the `success` flag (false iff the loop broke at the `step_failures >= 2`
check, main.py lines 702-706), and the dispatch trace. -/
structure AttemptRes where
  outcomes : List Outcome
  fails : Nat
  succ : Bool
  disp : List Dispatch
deriving DecidableEq

/-- The per-attempt step loop (main.py lines 574-712). -/
def attemptSteps (env : OrchEnv) (w : Nat) :
    List StepRec → Nat → Nat → AttemptRes
  | [], _i, f => ⟨[], f, true, []⟩
  | step :: rest, i, f =>
    let r0 := runStep env w i step
    if r0.2.1 then
      let r := attemptSteps env w rest (i + 1) f
      ⟨r0.1 :: r.outcomes, r.fails, r.succ, r0.2.2 ++ r.disp⟩
    else
      let f' := f + 1
      if 2 ≤ f' then ⟨[r0.1], f', false, r0.2.2⟩
      else
        let r := attemptSteps env w rest (i + 1) f'
        ⟨r0.1 :: r.outcomes, r.fails, r.succ, r0.2.2 ++ r.disp⟩

/-- The synthetic failed entry appended after a workflow-level exception on
the final attempt (main.py lines 738-749). -/
def mkWorkflowError (prevLen : Nat) (e : String) (w : Nat) : Outcome :=
  { step_number := prevLen + 1
    action := "workflow_error"
    target := "browser_automation"
    status := "failed"
    message := "Workflow error after 3 attempts: " ++ e
    error_details := e
    attempts_made := none
    workflow_attempt := w }

/-- `_regenerate_workflow_steps` (main.py lines 771-832): on success rewrites
`session["test_plan"]`; every failure is swallowed and leaves the session
unchanged.  Note it does NOT touch the `test_plan` the loop iterates. -/
def applyRegen (env : OrchEnv) (w : Nat) (s : Session) : Session :=
  match env.regen w with
  | some p => { s with testPlan := p }
  | none => s

/-- State threaded through the `while workflow_attempt < max_workflow_retries`
loop: `executed_steps`, `success`, the session dict, plus traces (number of
`_regenerate_workflow_steps` calls, dispatches, last attempt number). -/
structure RunState where
  executed : List Outcome
  success : Bool
  session : Session
  regenCalls : Nat
  disp : List Dispatch
  attemptsUsed : Nat
deriving DecidableEq

/-- The workflow-attempt loop (main.py lines 558-758), recursing on the
attempts remaining `fuel` (`w + fuel = 4` throughout; entered with `w = 1`,
`fuel = 3`).  A `create_session` exception before the resets of lines
569-570 leaves `executed_steps`/`success` untouched; on the final attempt it
appends the synthetic `workflow_error` outcome (lines 732-749). -/
def workflowGo (env : OrchEnv) (plan : TestPlan) :
    Nat → Nat → RunState → RunState
  | 0, _w, st => st
  | fuel + 1, w, st =>
    match env.createSessionErr w with
    | some e =>
      if fuel == 0 then
        { st with
            success := false
            executed := st.executed ++ [mkWorkflowError st.executed.length e w]
            attemptsUsed := w }
      else
        workflowGo env plan fuel (w + 1) { st with attemptsUsed := w }
    | none =>
      let r := attemptSteps env w plan.steps 0 0
      let st' : RunState :=
        { st with
            executed := r.outcomes
            success := r.succ
            disp := st.disp ++ r.disp
            attemptsUsed := w }
      if r.succ && r.fails == 0 then st'
      else if fuel == 0 then st'
      else
        workflowGo env plan fuel (w + 1)
          { st' with
              session := applyRegen env w st'.session
              regenCalls := st'.regenCalls + 1 }

/-- Number of entries of the log whose `status` is `"failed"`
(main.py line 761). -/
def countFailed (l : List Outcome) : Nat :=
  (l.filter (fun o => o.status == "failed")).length

/-- `_execute_self_healing_workflow` (main.py lines 541-769): run the
attempt loop, then build the final `ExecutionResult`, whose `success`
re-checks the retained log for failed entries (line 761).  Also returns the
final loop state for trace-level statements. -/
def runWorkflow (env : OrchEnv) (plan : TestPlan) (sess : Session) :
    ExecutionResult × RunState :=
  let st := workflowGo env plan 3 1 ⟨[], true, sess, 0, [], 0⟩
  let finalSuccess := st.success && countFailed st.executed == 0
  ({ success := finalSuccess
     steps_executed := st.executed.length
     total_steps := plan.steps.length
     execution_details := st.executed
     message :=
       "Self-healing execution: " ++ toString st.executed.length ++ "/" ++
       toString plan.steps.length ++ " steps, " ++
       (if finalSuccess then "completed successfully" else "failed") ++
       " after " ++ toString st.attemptsUsed ++ " workflow attempts" },
   st)

/-
Action Executor (src/automation/action_executor.py).
-/

/-- `needle` is a prefix of `hay` (character lists). -/
def listPrefixOf : List Char → List Char → Bool
  | [], _ => true
  | _ :: _, [] => false
  | a :: as, b :: bs => a == b && listPrefixOf as bs

/-- `needle` occurs somewhere in `hay` (character lists). -/
def listOccurs (needle : List Char) : List Char → Bool
  | [] => listPrefixOf needle []
  | c :: rest => listPrefixOf needle (c :: rest) || listOccurs needle rest

/-- Python's `needle in hay` substring test. -/
def strContains (hay needle : String) : Bool :=
  listOccurs needle.data hay.data

/-- Python's `s.lower()`. -/
def strLower (s : String) : String :=
  String.mk (s.data.map Char.toLower)

/-- `any(term in msg for term in terms)`. -/
def matchesAny (msg : String) (terms : List String) : Bool :=
  terms.any (fun t => strContains msg t)

/-- SSL-related error substrings (action_executor.py lines 81-83). -/
def ssl_terms : List String :=
  ["ssl", "certificate", "tls", "handshake", "cert", "x509"]

/-- Network-related error substrings (action_executor.py lines 97-99). -/
def net_terms : List String :=
  ["net::", "network", "timeout", "connection", "refused"]

/-- SSL warning-page indicator phrases (action_executor.py lines 127-131). -/
def ssl_error_indicators : List String :=
  ["ssl error", "certificate error", "not secure", "privacy error",
   "net::err_cert", "ssl_error", "your connection is not private",
   "proceed to", "advanced", "not private"]

/-- Proceed-button selector guesses (action_executor.py lines 139-154). -/
def ssl_proceed_selectors : List String :=
  ["#proceed-button", "#proceed-link", "[data-test-id='proceed-link']",
   "button:has-text('Proceed')", "a:has-text('Advanced')",
   "button:has-text('Advanced')", "#advanced-button",
   "a:has-text('Continue')", "button:has-text('Continue')",
   "a:has-text('Proceed to')", "#details-button", "#proceed-to-unsafe",
   ".proceed-link", "[data-test='proceed-button']"]

/-- One iteration of the SSL-proceed selector loop: any exception inside the
per-selector `try` (count, click, content) is caught and the loop continues;
`noMatch` is `locator(sel).count() == 0`; `clicked` carries the page content
and url observed after the click. -/
inductive ProceedTry where
  | raised (e : String)
  | noMatch
  | clicked (newContent : String) (newUrl : String)

/-- Environment of `_navigate`: the error (if any) of the k-th `page.goto`
call, the values or exceptions of the page-inspection calls after a
successful goto, and the per-selector outcome of the proceed loop.
`page.wait_for_load_state` (line 116) sits in its own try/except whose both
branches only wait, hence is not represented. -/
structure NavEnv where
  gotoErr : Nat → Option String
  title1 : PyResult String
  content1 : PyResult String
  currentUrl : String
  proceed : Nat → ProceedTry
  finalTitle : PyResult String

/-- One recorded `page.goto(url, **navigation_options)` call. -/
structure GotoCall where
  url : String
  wait_until : String
  timeout : Nat
deriving DecidableEq

/-- How the goto retry loop ended: a successful goto, or an exception
propagating out of the loop (the non-recoverable `raise` at line 108; the
for-else re-raise at line 112 is unreachable since the last iteration either
breaks or raises). -/
inductive NavLoopRes where
  | success
  | raised (e : String)
deriving DecidableEq

/-- The `for attempt in range(max_retries)` goto loop (action_executor.py
lines 71-112), recursing on the retries left `rl` (`attempt + rl = 2`;
entered with `attempt = 0`, `rl = 2`).  `wu` is the mutable
`navigation_options["wait_until"]`; the relaxation at lines 88-91 runs only
when retries remain and only changes the wait for `attempt == 1` (to
`domcontentloaded`) or `attempt == 2` (to `load`, unreachable).  Returns the
trace of goto calls made and how the loop ended. -/
def navRetryGo (env : NavEnv) (url : String) :
    Nat → Nat → String → List GotoCall × NavLoopRes
  | 0, attempt, wu =>
    let call : GotoCall := ⟨url, wu, 45000⟩
    match env.gotoErr attempt with
    | none => ([call], .success)
    | some e => ([call], .raised e)
  | rl' + 1, attempt, wu =>
    let call : GotoCall := ⟨url, wu, 45000⟩
    match env.gotoErr attempt with
    | none => ([call], .success)
    | some e =>
      let msg := strLower e
      if matchesAny msg ssl_terms then
        let wu' :=
          if attempt == 1 then "domcontentloaded"
          else if attempt == 2 then "load"
          else wu
        let r := navRetryGo env url rl' (attempt + 1) wu'
        (call :: r.1, r.2)
      else if matchesAny msg net_terms then
        let r := navRetryGo env url rl' (attempt + 1) wu
        (call :: r.1, r.2)
      else ([call], .raised e)

/-- The failure dicts built by `_navigate`'s outer `except` (lines 196-217);
neither carries an `execution_time_ms` key. -/
def navFailOutcome (url e : String) : ExecOutcome :=
  if matchesAny (strLower e) ssl_terms then
    { status := "failed"
      message := "SSL/TLS error navigating to " ++ url ++ ": " ++ e
      error_details := e
      error_type := "ssl_error" }
  else
    { status := "failed"
      message := "Failed to navigate to " ++ url ++ ": " ++ e
      error_details := e
      error_type := "navigation_error" }

/-- The SSL-proceed selector loop (lines 156-180): returns the `proceeded`
flag; every branch of its body either breaks with true or continues. -/
def proceedLoop (env : NavEnv) : Nat → List String → Bool
  | _i, [] => false
  | i, _sel :: rest =>
    match env.proceed i with
    | .raised _ => proceedLoop env (i + 1) rest
    | .noMatch => proceedLoop env (i + 1) rest
    | .clicked c u =>
      if !(matchesAny (strLower c) ssl_error_indicators) || u != env.currentUrl then
        true
      else proceedLoop env (i + 1) rest

/-- `ActionExecutor._navigate` (lines 57-217).  After a successful goto it
inspects the page (each inspection may raise, landing in the outer `except`)
and always builds the success dict of lines 186-194 with the constant
`execution_time_ms = 3000`.  Returns the goto-call trace alongside the
outcome dict. -/
def navigate (env : NavEnv) (url : String) : List GotoCall × ExecOutcome :=
  match navRetryGo env url 2 0 "networkidle" with
  | (calls, .raised e) => (calls, navFailOutcome url e)
  | (calls, .success) =>
    match env.title1 with
    | .exn e => (calls, navFailOutcome url e)
    | .ok _title =>
      match env.content1 with
      | .exn e => (calls, navFailOutcome url e)
      | .ok content =>
        let is_ssl_error_page := matchesAny (strLower content) ssl_error_indicators
        let _proceeded :=
          if is_ssl_error_page then proceedLoop env 0 ssl_proceed_selectors
          else false
        match env.finalTitle with
        | .exn e => (calls, navFailOutcome url e)
        | .ok _finalTitle =>
          (calls,
           { status := "success"
             message := "Successfully navigated to " ++ url
             ssl_warning_handled := is_ssl_error_page
             execution_time_ms := some 3000 })

/-- Environment of `execute_step`: the navigation environment plus, for each
non-navigate handler, the value its `try` body produces (each handler's own
`except` turns an exception into a failed dict, so handlers never raise);
`elapsedMs` is the wall-clock difference `int((time.time()-start)*1000)`
used by the wrapper's dicts. -/
structure ExecEnv where
  nav : NavEnv
  clickBody : PyResult ExecOutcome
  fillBody : PyResult ExecOutcome
  verifyBody : PyResult ExecOutcome
  waitBody : PyResult ExecOutcome
  selectBody : PyResult ExecOutcome
  elapsedMs : Nat

/-- The `try ... except Exception as e: return failed-dict` skeleton shared
by every handler. -/
def pyCatch (body : PyResult ExecOutcome) (onExn : String → ExecOutcome) :
    ExecOutcome :=
  match body with
  | .ok o => o
  | .exn e => onExn e

/-- `ActionExecutor._click` (lines 219-283), body abstracted by the
environment, except skeleton kept. -/
def clickAction (env : ExecEnv) (target : String) : ExecOutcome :=
  pyCatch env.clickBody fun e =>
    { status := "failed"
      message := "Failed to click " ++ target ++ ": " ++ e
      error_details := e }

/-- `ActionExecutor._fill` (lines 285-341). -/
def fillAction (env : ExecEnv) (target : String) : ExecOutcome :=
  pyCatch env.fillBody fun e =>
    { status := "failed"
      message := "Failed to fill " ++ target ++ ": " ++ e
      error_details := e }

/-- `ActionExecutor._verify` (lines 343-394). -/
def verifyAction (env : ExecEnv) (target : String) : ExecOutcome :=
  pyCatch env.verifyBody fun e =>
    { status := "failed"
      message := "Failed to verify " ++ target ++ ": " ++ e
      error_details := e }

/-- `ActionExecutor._wait` (lines 396-442). -/
def waitAction (env : ExecEnv) (_target : String) : ExecOutcome :=
  pyCatch env.waitBody fun e =>
    { status := "failed"
      message := "Wait failed: " ++ e
      error_details := e }

/-- `ActionExecutor._select` (lines 444-479). -/
def selectAction (env : ExecEnv) (target : String) : ExecOutcome :=
  pyCatch env.selectBody fun e =>
    { status := "failed"
      message := "Failed to select from " ++ target ++ ": " ++ e
      error_details := e }

/-- The dispatch inside `execute_step`'s `try` (lines 21-46): every branch
returns a dict (handlers catch internally; the unknown-action branch builds
its failed dict directly), so the body never raises — hence `PyResult`. -/
def execute_step_body (env : ExecEnv) (step : StepRec) : PyResult ExecOutcome :=
  let action := strLower step.action
  if action == "navigate" then .ok (navigate env.nav step.target).2
  else if action == "click" then .ok (clickAction env step.target)
  else if action == "fill" then .ok (fillAction env step.target)
  else if action == "verify" then .ok (verifyAction env step.target)
  else if action == "wait" then .ok (waitAction env step.target)
  else if action == "select" then .ok (selectAction env step.target)
  else
    .ok { status := "failed"
          message := "Unknown action: " ++ action
          execution_time_ms := some env.elapsedMs }

/-- `ActionExecutor.execute_step` (lines 17-55): the body wrapped in the
boundary `except Exception` of line 48, which converts any raised exception
into a failed dict — the executor never throws past this point. -/
def execute_step (env : ExecEnv) (step : StepRec) : ExecOutcome :=
  match execute_step_body env step with
  | .ok o => o
  | .exn e =>
    { status := "failed"
      message := "Failed to execute " ++ strLower step.action ++ ": " ++ e
      error_details := e
      execution_time_ms := some env.elapsedMs }

/-
Concrete scenario data used to evaluate the model on specific runs.
-/

/-- A successful executor result. -/
def okRes : ExecOutcome :=
  { status := "success", message := "ok", execution_time_ms := some 12 }

/-- A failed executor result. -/
def failRes : ExecOutcome :=
  { status := "failed", message := "element not found", error_details := "nf" }

/-- A click step on target `t`. -/
def mkClick (t : String) : StepRec := { action := "click", target := t }

/-- Scenario B plan: four steps. -/
def planB : TestPlan :=
  { name := "login"
    steps := [mkClick "s1", mkClick "s2", mkClick "s3", mkClick "s4"] }

/-- Scenario B environment: step 2 (index 1) fails every step-attempt of
every workflow attempt, all other steps succeed, no crashes, regeneration
is a swallowed no-op. -/
def envScenB : OrchEnv :=
  { createSessionErr := fun _ => none
    stepCall := fun _w i _a => if i == 1 then .ret failRes else .ret okRes
    regen := fun _ => none }

/-- Scenario C original plan. -/
def planScenC : TestPlan :=
  { name := "orig"
    steps := [mkClick "t1", mkClick "t2", mkClick "t3", mkClick "t4"] }

/-- Scenario C regenerated plan (different targets). -/
def planScenC' : TestPlan :=
  { name := "regen"
    steps := [mkClick "r1", mkClick "r2", mkClick "r3", mkClick "r4"] }

/-- Scenario C environment: steps 2 and 3 fail all retries in attempt 1,
everything succeeds from attempt 2 on; the regeneration after attempt 1
succeeds and stores `planScenC'` in the session. -/
def envScenC : OrchEnv :=
  { createSessionErr := fun _ => none
    stepCall := fun w i _a =>
      if w == 1 && (i == 1 || i == 2) then .ret failRes else .ret okRes
    regen := fun w => if w == 1 then some planScenC' else none }

/-- One-step plan for the bounds counterexample. -/
def planOne : TestPlan := { name := "single", steps := [mkClick "only"] }

/-- Environment where the single step always fails and `create_session`
raises on the third workflow attempt. -/
def envCrash3 : OrchEnv :=
  { createSessionErr := fun w => if w == 3 then some "browser down" else none
    stepCall := fun _ _ _ => .ret failRes
    regen := fun _ => none }

/-- Attempt environment where the first two steps fail and later ones
succeed. -/
def envTwoFails : OrchEnv :=
  { createSessionErr := fun _ => none
    stepCall := fun _w i _a => if i ≤ 1 then .ret failRes else .ret okRes
    regen := fun _ => none }

/-- Three-step list for the abort witness. -/
def stepsABC : List StepRec := [mkClick "a", mkClick "b", mkClick "c"]

/-- Navigation environment where every goto succeeds and the page is clean. -/
def envNavOK : NavEnv :=
  { gotoErr := fun _ => none
    title1 := .ok "Dashboard", content1 := .ok "hello world"
    currentUrl := "https://x/", proceed := fun _ => .noMatch
    finalTitle := .ok "Dashboard" }

/-- Navigation environment where every goto raises an SSL handshake error. -/
def envNavSSLerr : NavEnv :=
  { gotoErr := fun _ => some "SSL handshake failed"
    title1 := .ok "T", content1 := .ok "", currentUrl := ""
    proceed := fun _ => .noMatch, finalTitle := .ok "T" }

/-- Navigation environment whose first goto raises an error matching neither
the SSL nor the network substrings. -/
def envNavBoom : NavEnv :=
  { gotoErr := fun _ => some "boom"
    title1 := .ok "T", content1 := .ok "", currentUrl := ""
    proceed := fun _ => .noMatch, finalTitle := .ok "T" }

/-- Executor environment with all handler bodies succeeding. -/
def envExec : ExecEnv :=
  { nav := envNavOK
    clickBody := .ok okRes, fillBody := .ok okRes, verifyBody := .ok okRes
    waitBody := .ok okRes, selectBody := .ok okRes
    elapsedMs := 7 }

/-- A step with the unknown action string of Scenario E. -/
def stepScroll : StepRec := { action := "scroll", target := "page" }

/-
Lemmas about the step-attempt loop.
-/

theorem stepAttempts_fail_status (env : OrchEnv) (w i : Nat) (step : StepRec) :
    ∀ rl a, (stepAttempts env w i step rl a).2.1 = false →
      (stepAttempts env w i step rl a).1.status = "failed" := by
  intro rl
  induction rl with
  | zero =>
    intro a h
    cases hc : env.stepCall w i a with
    | ret o =>
      by_cases hs : (o.status == "success") = true
      · simp [stepAttempts, hc, hs] at h
      · simp [stepAttempts, hc, hs, mkFailedResult]
    | exn e => simp [stepAttempts, hc, mkFailedExn]
  | succ rl ih =>
    intro a h
    cases hc : env.stepCall w i a with
    | ret o =>
      by_cases hs : (o.status == "success") = true
      · simp [stepAttempts, hc, hs] at h
      · simp only [stepAttempts, hc, hs] at h ⊢
        simp only [Bool.false_eq_true, if_false] at h ⊢
        exact ih (a + 1) h
    | exn e =>
      simp only [stepAttempts, hc] at h ⊢
      exact ih (a + 1) h

theorem stepAttempts_succ_status (env : OrchEnv) (w i : Nat) (step : StepRec) :
    ∀ rl a, (stepAttempts env w i step rl a).2.1 = true →
      (stepAttempts env w i step rl a).1.status = "success" := by
  intro rl
  induction rl with
  | zero =>
    intro a h
    cases hc : env.stepCall w i a with
    | ret o =>
      by_cases hs : (o.status == "success") = true
      · simp [stepAttempts, hc, hs, mkSuccessOutcome]
      · simp [stepAttempts, hc, hs] at h
    | exn e => simp [stepAttempts, hc] at h
  | succ rl ih =>
    intro a h
    cases hc : env.stepCall w i a with
    | ret o =>
      by_cases hs : (o.status == "success") = true
      · simp [stepAttempts, hc, hs, mkSuccessOutcome]
      · simp only [stepAttempts, hc, hs] at h ⊢
        simp only [Bool.false_eq_true, if_false] at h ⊢
        exact ih (a + 1) h
    | exn e =>
      simp only [stepAttempts, hc] at h ⊢
      exact ih (a + 1) h

theorem stepAttempts_attempts_le (env : OrchEnv) (w i : Nat) (step : StepRec) :
    ∀ rl a x, (stepAttempts env w i step rl a).1.attempts_made = some x →
      x ≤ a + rl := by
  intro rl
  induction rl with
  | zero =>
    intro a x h
    cases hc : env.stepCall w i a with
    | ret o =>
      by_cases hs : (o.status == "success") = true
      · simp [stepAttempts, hc, hs, mkSuccessOutcome] at h
        omega
      · simp [stepAttempts, hc, hs, mkFailedResult] at h
        omega
    | exn e =>
      simp [stepAttempts, hc, mkFailedExn] at h
      omega
  | succ rl ih =>
    intro a x h
    cases hc : env.stepCall w i a with
    | ret o =>
      by_cases hs : (o.status == "success") = true
      · simp [stepAttempts, hc, hs, mkSuccessOutcome] at h
        omega
      · simp only [stepAttempts, hc, hs] at h
        simp only [Bool.false_eq_true, if_false] at h
        have := ih (a + 1) x h
        omega
    | exn e =>
      simp only [stepAttempts, hc] at h
      have := ih (a + 1) x h
      omega

theorem stepAttempts_disp_len (env : OrchEnv) (w i : Nat) (step : StepRec) :
    ∀ rl a, (stepAttempts env w i step rl a).2.2.length ≤ rl + 1 := by
  intro rl
  induction rl with
  | zero =>
    intro a
    cases hc : env.stepCall w i a with
    | ret o =>
      by_cases hs : (o.status == "success") = true
      · simp [stepAttempts, hc, hs]
      · simp [stepAttempts, hc, hs]
    | exn e => simp [stepAttempts, hc]
  | succ rl ih =>
    intro a
    cases hc : env.stepCall w i a with
    | ret o =>
      by_cases hs : (o.status == "success") = true
      · simp [stepAttempts, hc, hs]
      · simp only [stepAttempts, hc, hs]
        simp only [Bool.false_eq_true, if_false, List.length_cons]
        have := ih (a + 1)
        omega
    | exn e =>
      simp only [stepAttempts, hc, List.length_cons]
      have := ih (a + 1)
      omega

theorem stepAttempts_disp_step (env : OrchEnv) (w i : Nat) (step : StepRec) :
    ∀ rl a d, d ∈ (stepAttempts env w i step rl a).2.2 → d.step = step := by
  intro rl
  induction rl with
  | zero =>
    intro a d hd
    cases hc : env.stepCall w i a with
    | ret o =>
      by_cases hs : (o.status == "success") = true
      · simp [stepAttempts, hc, hs] at hd
        simp [hd]
      · simp [stepAttempts, hc, hs] at hd
        simp [hd]
    | exn e =>
      simp [stepAttempts, hc] at hd
      simp [hd]
  | succ rl ih =>
    intro a d hd
    cases hc : env.stepCall w i a with
    | ret o =>
      by_cases hs : (o.status == "success") = true
      · simp [stepAttempts, hc, hs] at hd
        simp [hd]
      · simp only [stepAttempts, hc, hs] at hd
        simp only [Bool.false_eq_true, if_false, List.mem_cons] at hd
        rcases hd with hd | hd
        · simp [hd]
        · exact ih (a + 1) d hd
    | exn e =>
      simp only [stepAttempts, hc, List.mem_cons] at hd
      rcases hd with hd | hd
      · simp [hd]
      · exact ih (a + 1) d hd

theorem stepAttempts_disp_i (env : OrchEnv) (w i : Nat) (step : StepRec) :
    ∀ rl a d, d ∈ (stepAttempts env w i step rl a).2.2 → d.i = i := by
  intro rl
  induction rl with
  | zero =>
    intro a d hd
    cases hc : env.stepCall w i a with
    | ret o =>
      by_cases hs : (o.status == "success") = true
      · simp [stepAttempts, hc, hs] at hd
        simp [hd]
      · simp [stepAttempts, hc, hs] at hd
        simp [hd]
    | exn e =>
      simp [stepAttempts, hc] at hd
      simp [hd]
  | succ rl ih =>
    intro a d hd
    cases hc : env.stepCall w i a with
    | ret o =>
      by_cases hs : (o.status == "success") = true
      · simp [stepAttempts, hc, hs] at hd
        simp [hd]
      · simp only [stepAttempts, hc, hs] at hd
        simp only [Bool.false_eq_true, if_false, List.mem_cons] at hd
        rcases hd with hd | hd
        · simp [hd]
        · exact ih (a + 1) d hd
    | exn e =>
      simp only [stepAttempts, hc, List.mem_cons] at hd
      rcases hd with hd | hd
      · simp [hd]
      · exact ih (a + 1) d hd

/-
Lemmas about counting failed outcomes.
-/

theorem countFailed_cons (o : Outcome) (l : List Outcome) :
    countFailed (o :: l) =
      (if o.status == "failed" then 1 else 0) + countFailed l := by
  unfold countFailed
  rw [List.filter_cons]
  split
  · simp [List.length_cons, Nat.add_comm]
  · simp

theorem countFailed_append (l₁ l₂ : List Outcome) :
    countFailed (l₁ ++ l₂) = countFailed l₁ + countFailed l₂ := by
  simp [countFailed, List.filter_append]

/-
Lemmas about a single orchestrated step.
-/

theorem runStep_fail_status (env : OrchEnv) (w i : Nat) (step : StepRec)
    (h : (runStep env w i step).2.1 = false) :
    (runStep env w i step).1.status = "failed" :=
  stepAttempts_fail_status env w i (dispatchStep step) 2 1 h

theorem runStep_attempts_le (env : OrchEnv) (w i : Nat) (step : StepRec)
    (x : Nat) (h : (runStep env w i step).1.attempts_made = some x) : x ≤ 3 :=
  stepAttempts_attempts_le env w i (dispatchStep step) 2 1 x h

theorem runStep_disp_len (env : OrchEnv) (w i : Nat) (step : StepRec) :
    (runStep env w i step).2.2.length ≤ 3 :=
  stepAttempts_disp_len env w i (dispatchStep step) 2 1

theorem runStep_disp_fields (env : OrchEnv) (w i : Nat) (step : StepRec)
    (d : Dispatch) (hd : d ∈ (runStep env w i step).2.2) :
    d.step.timeout = 300000 ∧ d.step.retry_count = 3 := by
  have := stepAttempts_disp_step env w i (dispatchStep step) 2 1 d hd
  rw [this]
  exact ⟨rfl, rfl⟩

theorem runStep_disp_i (env : OrchEnv) (w i : Nat) (step : StepRec)
    (d : Dispatch) (hd : d ∈ (runStep env w i step).2.2) : d.i = i :=
  stepAttempts_disp_i env w i (dispatchStep step) 2 1 d hd

/-
Lemmas about one workflow attempt's step loop.
-/

theorem attemptSteps_fail_count (env : OrchEnv) (w : Nat) :
    ∀ steps i f, (attemptSteps env w steps i f).succ = false →
      1 ≤ countFailed (attemptSteps env w steps i f).outcomes := by
  intro steps
  induction steps with
  | nil => intro i f h; simp [attemptSteps] at h
  | cons step rest ih =>
    intro i f h
    by_cases hr : (runStep env w i step).2.1 = true
    · simp only [attemptSteps, hr, if_true] at h ⊢
      have := ih (i + 1) f h
      rw [countFailed_cons]
      omega
    · simp only [Bool.not_eq_true] at hr
      by_cases hf : 2 ≤ f + 1
      · simp only [attemptSteps, hr, Bool.false_eq_true, if_false, hf, if_true] at h ⊢
        rw [countFailed_cons, runStep_fail_status env w i step hr]
        simp [countFailed]
      · simp only [attemptSteps, hr, Bool.false_eq_true, if_false, hf, if_false] at h ⊢
        rw [countFailed_cons, runStep_fail_status env w i step hr]
        have := ih (i + 1) (f + 1) h
        omega

theorem attemptSteps_succ_len (env : OrchEnv) (w : Nat) :
    ∀ steps i f, (attemptSteps env w steps i f).succ = true →
      (attemptSteps env w steps i f).outcomes.length = steps.length := by
  intro steps
  induction steps with
  | nil => intro i f _h; simp [attemptSteps]
  | cons step rest ih =>
    intro i f h
    by_cases hr : (runStep env w i step).2.1 = true
    · simp only [attemptSteps, hr, if_true] at h ⊢
      simp [ih (i + 1) f h]
    · simp only [Bool.not_eq_true] at hr
      by_cases hf : 2 ≤ f + 1
      · simp only [attemptSteps, hr, Bool.false_eq_true, if_false, hf, if_true] at h
      · simp only [attemptSteps, hr, Bool.false_eq_true, if_false, hf, if_false] at h ⊢
        simp [ih (i + 1) (f + 1) h]

theorem attemptSteps_fails_of_not_succ (env : OrchEnv) (w : Nat) :
    ∀ steps i f, (attemptSteps env w steps i f).succ = false →
      2 ≤ (attemptSteps env w steps i f).fails := by
  intro steps
  induction steps with
  | nil => intro i f h; simp [attemptSteps] at h
  | cons step rest ih =>
    intro i f h
    by_cases hr : (runStep env w i step).2.1 = true
    · simp only [attemptSteps, hr, if_true] at h ⊢
      exact ih (i + 1) f h
    · simp only [Bool.not_eq_true] at hr
      by_cases hf : 2 ≤ f + 1
      · simp only [attemptSteps, hr, Bool.false_eq_true, if_false, hf, if_true]
      · simp only [attemptSteps, hr, Bool.false_eq_true, if_false, hf, if_false] at h ⊢
        exact ih (i + 1) (f + 1) h

theorem attemptSteps_len_le (env : OrchEnv) (w : Nat) :
    ∀ steps i f,
      (attemptSteps env w steps i f).outcomes.length ≤ steps.length := by
  intro steps
  induction steps with
  | nil => intro i f; simp [attemptSteps]
  | cons step rest ih =>
    intro i f
    by_cases hr : (runStep env w i step).2.1 = true
    · simp only [attemptSteps, hr, if_true, List.length_cons, List.length_cons]
      have := ih (i + 1) f
      omega
    · simp only [Bool.not_eq_true] at hr
      by_cases hf : 2 ≤ f + 1
      · simp only [attemptSteps, hr, Bool.false_eq_true, if_false, hf, if_true]
        simp
      · simp only [attemptSteps, hr, Bool.false_eq_true, if_false, hf, if_false,
          List.length_cons]
        have := ih (i + 1) (f + 1)
        omega

theorem attemptSteps_attempts_le (env : OrchEnv) (w : Nat) :
    ∀ steps i f o, o ∈ (attemptSteps env w steps i f).outcomes →
      ∀ x, o.attempts_made = some x → x ≤ 3 := by
  intro steps
  induction steps with
  | nil => intro i f o ho; simp [attemptSteps] at ho
  | cons step rest ih =>
    intro i f o ho x hx
    by_cases hr : (runStep env w i step).2.1 = true
    · simp only [attemptSteps, hr, if_true, List.mem_cons] at ho
      rcases ho with ho | ho
      · exact runStep_attempts_le env w i step x (ho ▸ hx)
      · exact ih (i + 1) f o ho x hx
    · simp only [Bool.not_eq_true] at hr
      by_cases hf : 2 ≤ f + 1
      · simp only [attemptSteps, hr, Bool.false_eq_true, if_false, hf, if_true,
          List.mem_singleton] at ho
        exact runStep_attempts_le env w i step x (ho ▸ hx)
      · simp only [attemptSteps, hr, Bool.false_eq_true, if_false, hf, if_false,
          List.mem_cons] at ho
        rcases ho with ho | ho
        · exact runStep_attempts_le env w i step x (ho ▸ hx)
        · exact ih (i + 1) (f + 1) o ho x hx

theorem attemptSteps_disp_len (env : OrchEnv) (w : Nat) :
    ∀ steps i f,
      (attemptSteps env w steps i f).disp.length ≤ 3 * steps.length := by
  intro steps
  induction steps with
  | nil => intro i f; simp [attemptSteps]
  | cons step rest ih =>
    intro i f
    have hstep := runStep_disp_len env w i step
    by_cases hr : (runStep env w i step).2.1 = true
    · simp only [attemptSteps, hr, if_true, List.length_append, List.length_cons]
      have := ih (i + 1) f
      omega
    · simp only [Bool.not_eq_true] at hr
      by_cases hf : 2 ≤ f + 1
      · simp only [attemptSteps, hr, Bool.false_eq_true, if_false, hf, if_true,
          List.length_cons]
        omega
      · simp only [attemptSteps, hr, Bool.false_eq_true, if_false, hf, if_false,
          List.length_append, List.length_cons]
        have := ih (i + 1) (f + 1)
        omega

theorem attemptSteps_disp_fields (env : OrchEnv) (w : Nat) :
    ∀ steps i f d, d ∈ (attemptSteps env w steps i f).disp →
      d.step.timeout = 300000 ∧ d.step.retry_count = 3 := by
  intro steps
  induction steps with
  | nil => intro i f d hd; simp [attemptSteps] at hd
  | cons step rest ih =>
    intro i f d hd
    by_cases hr : (runStep env w i step).2.1 = true
    · simp only [attemptSteps, hr, if_true, List.mem_append] at hd
      rcases hd with hd | hd
      · exact runStep_disp_fields env w i step d hd
      · exact ih (i + 1) f d hd
    · simp only [Bool.not_eq_true] at hr
      by_cases hf : 2 ≤ f + 1
      · simp only [attemptSteps, hr, Bool.false_eq_true, if_false, hf, if_true] at hd
        exact runStep_disp_fields env w i step d hd
      · simp only [attemptSteps, hr, Bool.false_eq_true, if_false, hf, if_false,
          List.mem_append] at hd
        rcases hd with hd | hd
        · exact runStep_disp_fields env w i step d hd
        · exact ih (i + 1) (f + 1) d hd

theorem attemptSteps_disp_idx (env : OrchEnv) (w : Nat) :
    ∀ steps i f d, d ∈ (attemptSteps env w steps i f).disp →
      d.i < i + (attemptSteps env w steps i f).outcomes.length := by
  intro steps
  induction steps with
  | nil => intro i f d hd; simp [attemptSteps] at hd
  | cons step rest ih =>
    intro i f d hd
    by_cases hr : (runStep env w i step).2.1 = true
    · simp only [attemptSteps, hr, if_true, List.mem_append] at hd ⊢
      rcases hd with hd | hd
      · rw [runStep_disp_i env w i step d hd]
        simp only [List.length_cons]
        omega
      · have := ih (i + 1) f d hd
        simp only [List.length_cons]
        omega
    · simp only [Bool.not_eq_true] at hr
      by_cases hf : 2 ≤ f + 1
      · simp only [attemptSteps, hr, Bool.false_eq_true, if_false, hf, if_true] at hd ⊢
        rw [runStep_disp_i env w i step d hd]
        simp
      · simp only [attemptSteps, hr, Bool.false_eq_true, if_false, hf, if_false,
          List.mem_append] at hd ⊢
        rcases hd with hd | hd
        · rw [runStep_disp_i env w i step d hd]
          simp only [List.length_cons]
          omega
        · have := ih (i + 1) (f + 1) d hd
          simp only [List.length_cons]
          omega

theorem attemptSteps_abort_last (env : OrchEnv) (w : Nat) :
    ∀ steps i f, f ≤ 1 →
      ∀ p, p <+: (attemptSteps env w steps i f).outcomes →
        2 ≤ f + countFailed p →
        p.length = (attemptSteps env w steps i f).outcomes.length := by
  intro steps
  induction steps with
  | nil =>
    intro i f _hf p hp _hcnt
    simp only [attemptSteps] at hp ⊢
    simpa using List.prefix_nil.mp hp
  | cons step rest ih =>
    intro i f hf p hp hcnt
    by_cases hr : (runStep env w i step).2.1 = true
    · simp only [attemptSteps, hr, if_true] at hp ⊢
      cases p with
      | nil => simp [countFailed] at hcnt; omega
      | cons q p' =>
        rw [List.cons_prefix_cons] at hp
        obtain ⟨hq, hp'⟩ := hp
        have hqs : q.status = "success" := by
          rw [hq]; exact stepAttempts_succ_status env w i (dispatchStep step) 2 1 hr
        rw [countFailed_cons, hqs] at hcnt
        simp only [List.length_cons]
        rw [ih (i + 1) f hf p' hp' (by simpa using hcnt)]
    · simp only [Bool.not_eq_true] at hr
      have hqsf : (runStep env w i step).1.status = "failed" :=
        runStep_fail_status env w i step hr
      by_cases hf2 : 2 ≤ f + 1
      · simp only [attemptSteps, hr, Bool.false_eq_true, if_false, hf2, if_true] at hp ⊢
        cases p with
        | nil => simp [countFailed] at hcnt; omega
        | cons q p' =>
          rw [List.cons_prefix_cons] at hp
          obtain ⟨hq, hp'⟩ := hp
          have := List.prefix_nil.mp hp'
          simp [this]
      · simp only [attemptSteps, hr, Bool.false_eq_true, if_false, hf2, if_false] at hp ⊢
        cases p with
        | nil => simp [countFailed] at hcnt; omega
        | cons q p' =>
          rw [List.cons_prefix_cons] at hp
          obtain ⟨hq, hp'⟩ := hp
          rw [countFailed_cons, hq, hqsf] at hcnt
          simp only [List.length_cons]
          rw [ih (i + 1) (f + 1) (by omega) p' hp' (by simp at hcnt; omega)]

/-
Lemmas about the workflow-attempt loop.
-/

theorem workflowGo_success_inv (env : OrchEnv) (plan : TestPlan) :
    ∀ fuel w st,
      (st.success = false → 1 ≤ countFailed st.executed) →
      (workflowGo env plan fuel w st).success = false →
      1 ≤ countFailed (workflowGo env plan fuel w st).executed := by
  intro fuel
  induction fuel with
  | zero => intro w st hst; simpa [workflowGo] using hst
  | succ fuel ih =>
    intro w st hst
    cases hc : env.createSessionErr w with
    | some e =>
      by_cases hf : fuel = 0
      · subst hf
        simp only [workflowGo, hc]
        rw [if_pos (show ((0 : Nat) == 0) = true from rfl)]
        intro _h
        rw [countFailed_append]
        simp [countFailed, mkWorkflowError]
      · simp only [workflowGo, hc]
        rw [if_neg (by simpa using hf)]
        exact ih (w + 1) _ hst
    | none =>
      simp only [workflowGo, hc]
      by_cases h1 : ((attemptSteps env w plan.steps 0 0).succ &&
          ((attemptSteps env w plan.steps 0 0).fails == 0)) = true
      · rw [if_pos h1]
        intro hsf
        simp only at hsf
        rw [Bool.and_eq_true] at h1
        rw [hsf] at h1
        simp at h1
      · rw [if_neg h1]
        by_cases hf : fuel = 0
        · subst hf
          rw [if_pos (show ((0 : Nat) == 0) = true from rfl)]
          intro hsf
          simp only at hsf
          exact attemptSteps_fail_count env w plan.steps 0 0 hsf
        · rw [if_neg (by simpa using hf)]
          apply ih
          intro hsf
          simp only at hsf
          exact attemptSteps_fail_count env w plan.steps 0 0 hsf

theorem workflowGo_len_le (env : OrchEnv) (plan : TestPlan) :
    ∀ fuel w st,
      st.executed.length ≤ plan.steps.length →
      (workflowGo env plan fuel w st).executed.length ≤ plan.steps.length + 1 := by
  intro fuel
  induction fuel with
  | zero => intro w st hst; simp only [workflowGo]; omega
  | succ fuel ih =>
    intro w st hst
    cases hc : env.createSessionErr w with
    | some e =>
      by_cases hf : fuel = 0
      · subst hf
        simp only [workflowGo, hc]
        rw [if_pos (show ((0 : Nat) == 0) = true from rfl)]
        simp only [List.length_append, List.length_singleton]
        omega
      · simp only [workflowGo, hc]
        rw [if_neg (by simpa using hf)]
        exact ih (w + 1) _ hst
    | none =>
      simp only [workflowGo, hc]
      by_cases h1 : ((attemptSteps env w plan.steps 0 0).succ &&
          ((attemptSteps env w plan.steps 0 0).fails == 0)) = true
      · rw [if_pos h1]
        simp only
        have := attemptSteps_len_le env w plan.steps 0 0
        omega
      · rw [if_neg h1]
        by_cases hf : fuel = 0
        · subst hf
          rw [if_pos (show ((0 : Nat) == 0) = true from rfl)]
          simp only
          have := attemptSteps_len_le env w plan.steps 0 0
          omega
        · rw [if_neg (by simpa using hf)]
          exact ih (w + 1) _ (attemptSteps_len_le env w plan.steps 0 0)

theorem workflowGo_len_le_nocrash (env : OrchEnv) (plan : TestPlan)
    (hnc : ∀ w, env.createSessionErr w = none) :
    ∀ fuel w st,
      st.executed.length ≤ plan.steps.length →
      (workflowGo env plan fuel w st).executed.length ≤ plan.steps.length := by
  intro fuel
  induction fuel with
  | zero => intro w st hst; simpa only [workflowGo] using hst
  | succ fuel ih =>
    intro w st hst
    simp only [workflowGo, hnc w]
    by_cases h1 : ((attemptSteps env w plan.steps 0 0).succ &&
        ((attemptSteps env w plan.steps 0 0).fails == 0)) = true
    · rw [if_pos h1]
      exact attemptSteps_len_le env w plan.steps 0 0
    · rw [if_neg h1]
      by_cases hf : fuel = 0
      · subst hf
        rw [if_pos (show ((0 : Nat) == 0) = true from rfl)]
        exact attemptSteps_len_le env w plan.steps 0 0
      · rw [if_neg (by simpa using hf)]
        exact ih (w + 1) _ (attemptSteps_len_le env w plan.steps 0 0)

theorem workflowGo_attempts_le (env : OrchEnv) (plan : TestPlan) :
    ∀ fuel w st,
      (∀ o ∈ st.executed, ∀ x, o.attempts_made = some x → x ≤ 3) →
      ∀ o ∈ (workflowGo env plan fuel w st).executed,
        ∀ x, o.attempts_made = some x → x ≤ 3 := by
  intro fuel
  induction fuel with
  | zero => intro w st hst; simpa only [workflowGo] using hst
  | succ fuel ih =>
    intro w st hst
    cases hc : env.createSessionErr w with
    | some e =>
      by_cases hf : fuel = 0
      · subst hf
        simp only [workflowGo, hc]
        rw [if_pos (show ((0 : Nat) == 0) = true from rfl)]
        simp only [List.mem_append, List.mem_singleton]
        intro o ho x hx
        rcases ho with ho | ho
        · exact hst o ho x hx
        · rw [ho] at hx
          simp [mkWorkflowError] at hx
      · simp only [workflowGo, hc]
        rw [if_neg (by simpa using hf)]
        exact ih (w + 1) _ hst
    | none =>
      simp only [workflowGo, hc]
      by_cases h1 : ((attemptSteps env w plan.steps 0 0).succ &&
          ((attemptSteps env w plan.steps 0 0).fails == 0)) = true
      · rw [if_pos h1]
        intro o ho x hx
        exact attemptSteps_attempts_le env w plan.steps 0 0 o ho x hx
      · rw [if_neg h1]
        by_cases hf : fuel = 0
        · subst hf
          rw [if_pos (show ((0 : Nat) == 0) = true from rfl)]
          intro o ho x hx
          exact attemptSteps_attempts_le env w plan.steps 0 0 o ho x hx
        · rw [if_neg (by simpa using hf)]
          apply ih
          intro o ho x hx
          exact attemptSteps_attempts_le env w plan.steps 0 0 o ho x hx

theorem workflowGo_attemptsUsed_le (env : OrchEnv) (plan : TestPlan) :
    ∀ fuel w st, w + fuel ≤ 4 → st.attemptsUsed ≤ 3 →
      (workflowGo env plan fuel w st).attemptsUsed ≤ 3 := by
  intro fuel
  induction fuel with
  | zero => intro w st _hw hst; simpa only [workflowGo] using hst
  | succ fuel ih =>
    intro w st hw hst
    have hw3 : w ≤ 3 := by omega
    cases hc : env.createSessionErr w with
    | some e =>
      by_cases hf : fuel = 0
      · subst hf
        simp only [workflowGo, hc]
        rw [if_pos (show ((0 : Nat) == 0) = true from rfl)]
        exact hw3
      · simp only [workflowGo, hc]
        rw [if_neg (by simpa using hf)]
        exact ih (w + 1) _ (by omega) hw3
    | none =>
      simp only [workflowGo, hc]
      by_cases h1 : ((attemptSteps env w plan.steps 0 0).succ &&
          ((attemptSteps env w plan.steps 0 0).fails == 0)) = true
      · rw [if_pos h1]
        exact hw3
      · rw [if_neg h1]
        by_cases hf : fuel = 0
        · subst hf
          rw [if_pos (show ((0 : Nat) == 0) = true from rfl)]
          exact hw3
        · rw [if_neg (by simpa using hf)]
          exact ih (w + 1) _ (by omega) hw3

theorem workflowGo_disp_len (env : OrchEnv) (plan : TestPlan) :
    ∀ fuel w st,
      (workflowGo env plan fuel w st).disp.length ≤
        st.disp.length + fuel * (3 * plan.steps.length) := by
  intro fuel
  induction fuel with
  | zero => intro w st; simp only [workflowGo]; omega
  | succ fuel ih =>
    intro w st
    have hmul : (fuel + 1) * (3 * plan.steps.length) =
        fuel * (3 * plan.steps.length) + 3 * plan.steps.length :=
      Nat.succ_mul _ _
    cases hc : env.createSessionErr w with
    | some e =>
      by_cases hf : fuel = 0
      · subst hf
        simp only [workflowGo, hc]
        rw [if_pos (show ((0 : Nat) == 0) = true from rfl)]
        simp only
        omega
      · simp only [workflowGo, hc]
        rw [if_neg (by simpa using hf)]
        have := ih (w + 1) { st with attemptsUsed := w }
        simp only at this
        omega
    | none =>
      have hat := attemptSteps_disp_len env w plan.steps 0 0
      simp only [workflowGo, hc]
      by_cases h1 : ((attemptSteps env w plan.steps 0 0).succ &&
          ((attemptSteps env w plan.steps 0 0).fails == 0)) = true
      · rw [if_pos h1]
        simp only [List.length_append]
        omega
      · rw [if_neg h1]
        by_cases hf : fuel = 0
        · subst hf
          rw [if_pos (show ((0 : Nat) == 0) = true from rfl)]
          simp only [List.length_append]
          omega
        · rw [if_neg (by simpa using hf)]
          have := ih (w + 1)
            { executed := (attemptSteps env w plan.steps 0 0).outcomes
              success := (attemptSteps env w plan.steps 0 0).succ
              session := applyRegen env w st.session
              regenCalls := st.regenCalls + 1
              disp := st.disp ++ (attemptSteps env w plan.steps 0 0).disp
              attemptsUsed := w }
          simp only [List.length_append] at this
          omega

theorem workflowGo_disp_fields (env : OrchEnv) (plan : TestPlan) :
    ∀ fuel w st,
      (∀ d ∈ st.disp, d.step.timeout = 300000 ∧ d.step.retry_count = 3) →
      ∀ d ∈ (workflowGo env plan fuel w st).disp,
        d.step.timeout = 300000 ∧ d.step.retry_count = 3 := by
  intro fuel
  induction fuel with
  | zero => intro w st hst; simpa only [workflowGo] using hst
  | succ fuel ih =>
    intro w st hst
    cases hc : env.createSessionErr w with
    | some e =>
      by_cases hf : fuel = 0
      · subst hf
        simp only [workflowGo, hc]
        rw [if_pos (show ((0 : Nat) == 0) = true from rfl)]
        exact hst
      · simp only [workflowGo, hc]
        rw [if_neg (by simpa using hf)]
        exact ih (w + 1) _ hst
    | none =>
      have hnext : ∀ d ∈ st.disp ++ (attemptSteps env w plan.steps 0 0).disp,
          d.step.timeout = 300000 ∧ d.step.retry_count = 3 := by
        intro d hd
        rcases List.mem_append.mp hd with hd | hd
        · exact hst d hd
        · exact attemptSteps_disp_fields env w plan.steps 0 0 d hd
      simp only [workflowGo, hc]
      by_cases h1 : ((attemptSteps env w plan.steps 0 0).succ &&
          ((attemptSteps env w plan.steps 0 0).fails == 0)) = true
      · rw [if_pos h1]
        exact hnext
      · rw [if_neg h1]
        by_cases hf : fuel = 0
        · subst hf
          rw [if_pos (show ((0 : Nat) == 0) = true from rfl)]
          exact hnext
        · rw [if_neg (by simpa using hf)]
          exact ih (w + 1) _ hnext

/-
Lemmas about the navigation retry loop and the executor dispatch.
-/

theorem navFailOutcome_status (url e : String) :
    (navFailOutcome url e).status = "failed" := by
  unfold navFailOutcome
  split <;> rfl

theorem navRetryGo_head (env : NavEnv) (url : String) :
    ∀ rl attempt wu, (navRetryGo env url rl attempt wu).1.head? =
      some ⟨url, wu, 45000⟩ := by
  intro rl attempt wu
  cases rl with
  | zero =>
    cases hg : env.gotoErr attempt with
    | none => simp [navRetryGo, hg]
    | some e => simp [navRetryGo, hg]
  | succ rl' =>
    cases hg : env.gotoErr attempt with
    | none => simp [navRetryGo, hg]
    | some e =>
      by_cases hs : matchesAny (strLower e) ssl_terms = true
      · simp [navRetryGo, hg, hs]
      · by_cases hn : matchesAny (strLower e) net_terms = true
        · simp [navRetryGo, hg, hs, hn]
        · simp [navRetryGo, hg, hs, hn]

theorem navRetryGo_len (env : NavEnv) (url : String) :
    ∀ rl attempt wu, (navRetryGo env url rl attempt wu).1.length ≤ rl + 1 := by
  intro rl
  induction rl with
  | zero =>
    intro attempt wu
    cases hg : env.gotoErr attempt with
    | none => simp [navRetryGo, hg]
    | some e => simp [navRetryGo, hg]
  | succ rl' ih =>
    intro attempt wu
    cases hg : env.gotoErr attempt with
    | none => simp [navRetryGo, hg]
    | some e =>
      by_cases hs : matchesAny (strLower e) ssl_terms = true
      · simp only [navRetryGo, hg, hs, if_true, List.length_cons]
        have := ih (attempt + 1)
          (if attempt == 1 then "domcontentloaded"
           else if attempt == 2 then "load" else wu)
        omega
      · by_cases hn : matchesAny (strLower e) net_terms = true
        · simp only [navRetryGo, hg, hs, hn, Bool.false_eq_true, if_false,
            if_true, List.length_cons]
          have := ih (attempt + 1) wu
          omega
        · simp [navRetryGo, hg, hs, hn]

theorem navigate_calls (env : NavEnv) (url : String) :
    (navigate env url).1 = (navRetryGo env url 2 0 "networkidle").1 := by
  unfold navigate
  rcases hr : navRetryGo env url 2 0 "networkidle" with ⟨calls, res⟩
  cases res with
  | raised e => simp
  | success =>
    cases env.title1 with
    | exn e => simp
    | ok t =>
      cases env.content1 with
      | exn e => simp
      | ok content =>
        cases env.finalTitle with
        | exn e => simp
        | ok ft => simp

theorem navigate_other_error (env : NavEnv) (url e : String)
    (hg : env.gotoErr 0 = some e)
    (hs : matchesAny (strLower e) ssl_terms = false)
    (hn : matchesAny (strLower e) net_terms = false) :
    (navigate env url).1.length = 1 ∧ (navigate env url).2.status = "failed" := by
  have hr : navRetryGo env url 2 0 "networkidle" =
      ([⟨url, "networkidle", 45000⟩], .raised e) := by
    simp [navRetryGo, hg, hs, hn]
  constructor
  · rw [navigate_calls, hr]
    rfl
  · unfold navigate
    rw [hr]
    exact navFailOutcome_status url e

theorem execute_step_body_ok (env : ExecEnv) (step : StepRec) :
    ∃ o, execute_step_body env step = PyResult.ok o := by
  simp only [execute_step_body]
  repeat' split
  all_goals exact ⟨_, rfl⟩

theorem execute_step_unknown (env : ExecEnv) (step : StepRec)
    (h : strLower step.action ∉
      ["navigate", "click", "fill", "verify", "wait", "select"]) :
    execute_step env step =
      { status := "failed"
        message := "Unknown action: " ++ strLower step.action
        execution_time_ms := some env.elapsedMs } := by
  simp only [List.mem_cons, List.mem_singleton, not_or] at h
  obtain ⟨h1, h2, h3, h4, h5, h6, _⟩ := h
  simp [execute_step, execute_step_body, h1, h2, h3, h4, h5, h6]

/-
Claim theorems.
-/

/-- Claim C1 (divergence evaluated at the failing input, Scenario C): after
attempt 1 fails twice and regeneration succeeds, the regenerated plan is
stored in the session, but attempt 2 still dispatches and logs the ORIGINAL
plan's steps — the loop never reads `session["test_plan"]`, so the
regenerated step sequence is not the one executed. -/
theorem C1_regenerated_plan_not_executed :
    (runWorkflow envScenC planScenC ⟨planScenC⟩).2.session.testPlan = planScenC' ∧
    (((runWorkflow envScenC planScenC ⟨planScenC⟩).2.disp.filter
        fun d => d.w == 2).map fun d => d.step.target) =
      ["t1", "t2", "t3", "t4"] ∧
    ((runWorkflow envScenC planScenC ⟨planScenC⟩).1.execution_details.map
        fun o => o.target) = ["t1", "t2", "t3", "t4"] ∧
    (planScenC'.steps.map fun s => s.target) = ["r1", "r2", "r3", "r4"] ∧
    (runWorkflow envScenC planScenC ⟨planScenC⟩).2.attemptsUsed = 2 := by
  refine ⟨by decide, by decide, by decide, by decide, by decide⟩

/-- Claim C2 counterexample (Scenario B): with exactly one failing step per
attempt, the orchestrator nevertheless calls regeneration twice and uses all
three workflow attempts — not a single attempt with no regeneration. -/
theorem C2_single_failure_counterexample :
    (runWorkflow envScenB planB ⟨planB⟩).2.attemptsUsed = 3 ∧
    (runWorkflow envScenB planB ⟨planB⟩).2.regenCalls = 2 ∧
    ¬(runWorkflow envScenB planB ⟨planB⟩).2.attemptsUsed = 1 := by
  refine ⟨by decide, by decide, by decide⟩

/-- Claim C2 amended: an attempt whose `step_failures` stays at most 1 is
never aborted mid-attempt — it records one outcome per step; but in
Scenario B the final result still has 4 of 4 outcomes with `success = false`
while regeneration ran twice and all three workflow attempts were used. -/
theorem C2_single_failure_amended :
    (∀ env w steps, (attemptSteps env w steps 0 0).fails ≤ 1 →
      (attemptSteps env w steps 0 0).outcomes.length = steps.length) ∧
    (runWorkflow envScenB planB ⟨planB⟩).1.execution_details.length = 4 ∧
    (runWorkflow envScenB planB ⟨planB⟩).1.success = false ∧
    (runWorkflow envScenB planB ⟨planB⟩).2.regenCalls = 2 ∧
    (runWorkflow envScenB planB ⟨planB⟩).2.attemptsUsed = 3 := by
  refine ⟨?_, by decide, by decide, by decide, by decide⟩
  intro env w steps hfail
  by_cases hs : (attemptSteps env w steps 0 0).succ = true
  · exact attemptSteps_succ_len env w steps 0 0 hs
  · have hs' : (attemptSteps env w steps 0 0).succ = false := by
      revert hs
      cases (attemptSteps env w steps 0 0).succ <;> simp
    have := attemptSteps_fails_of_not_succ env w steps 0 0 hs'
    omega

/-- Witness for the amended C2 at Scenario B's first attempt: one failure,
all four steps get an outcome. -/
theorem C2_single_failure_amended_witness :
    (attemptSteps envScenB 1 planB.steps 0 0).fails ≤ 1 ∧
    (attemptSteps envScenB 1 planB.steps 0 0).outcomes.length =
      planB.steps.length :=
  ⟨by decide, C2_single_failure_amended.1 envScenB 1 planB.steps (by decide)⟩

/-- Claim C3 counterexample: under a persistent SSL error the goto loop
issues three calls, not at most two, and the first call waits for full
`networkidle`, not a reduced content-loaded condition. -/
theorem C3_navigation_counterexample :
    ((navigate envNavSSLerr "https://x").1.map fun c => c.wait_until) =
      ["networkidle", "networkidle", "domcontentloaded"] ∧
    ¬((navigate envNavSSLerr "https://x").1.length ≤ 2) := by
  refine ⟨by decide, by decide⟩

/-- Claim C3 amended: the first goto of every navigation uses
`wait_until = "networkidle"` with a 45000 ms timeout; at most 3 goto calls
are made; and an error matching neither the SSL substrings nor the network
substrings propagates immediately — exactly one call and a failed outcome. -/
theorem C3_navigation_amended (env : NavEnv) (url : String) :
    (navigate env url).1.head? =
      some { url := url, wait_until := "networkidle", timeout := 45000 } ∧
    (navigate env url).1.length ≤ 3 ∧
    (∀ e, env.gotoErr 0 = some e →
      matchesAny (strLower e) ssl_terms = false →
      matchesAny (strLower e) net_terms = false →
      (navigate env url).1.length = 1 ∧
        (navigate env url).2.status = "failed") := by
  refine ⟨?_, ?_, ?_⟩
  · rw [navigate_calls]
    exact navRetryGo_head env url 2 0 "networkidle"
  · rw [navigate_calls]
    exact navRetryGo_len env url 2 0 "networkidle"
  · intro e hg hs hn
    exact navigate_other_error env url e hg hs hn

/-- Witness for the amended C3: the error "boom" matches neither class, so
navigation fails after exactly one goto call. -/
theorem C3_navigation_amended_witness :
    envNavBoom.gotoErr 0 = some "boom" ∧
    ((navigate envNavBoom "https://x").1.length = 1 ∧
      (navigate envNavBoom "https://x").2.status = "failed") :=
  ⟨rfl, (C3_navigation_amended envNavBoom "https://x").2.2 "boom" rfl
    (by decide) (by decide)⟩

/-- Claim C4 counterexample: when `create_session` raises on the final
attempt, the outcomes retained from the previous attempt plus the appended
synthetic `workflow_error` entry make `steps_executed` exceed
`total_steps` (here 2 > 1). -/
theorem C4_bounds_counterexample :
    ¬((runWorkflow envCrash3 planOne ⟨planOne⟩).1.steps_executed ≤
        (runWorkflow envCrash3 planOne ⟨planOne⟩).1.total_steps) := by
  decide

/-- Claim C4 amended: `execution_details` always has length
`steps_executed`, and `steps_executed ≤ total_steps + 1` in general; the
bound `steps_executed ≤ total_steps` holds on every execution in which no
workflow-level `create_session` exception occurs (the only paths that append
the synthetic `workflow_error` outcome). -/
theorem C4_bounds_amended (env : OrchEnv) (plan : TestPlan) (sess : Session) :
    (runWorkflow env plan sess).1.execution_details.length =
      (runWorkflow env plan sess).1.steps_executed ∧
    (runWorkflow env plan sess).1.steps_executed ≤
      (runWorkflow env plan sess).1.total_steps + 1 ∧
    ((∀ w, env.createSessionErr w = none) →
      (runWorkflow env plan sess).1.steps_executed ≤
        (runWorkflow env plan sess).1.total_steps) := by
  refine ⟨rfl, ?_, ?_⟩
  · exact workflowGo_len_le env plan 3 1 ⟨[], true, sess, 0, [], 0⟩ (by simp)
  · intro hnc
    exact workflowGo_len_le_nocrash env plan hnc 3 1 ⟨[], true, sess, 0, [], 0⟩
      (by simp)

/-- Witness for the amended C4 on the crash-free Scenario B environment. -/
theorem C4_bounds_amended_witness :
    (∀ w, envScenB.createSessionErr w = none) ∧
    (runWorkflow envScenB planB ⟨planB⟩).1.steps_executed ≤
      (runWorkflow envScenB planB ⟨planB⟩).1.total_steps :=
  ⟨fun _ => rfl,
    (C4_bounds_amended envScenB planB ⟨planB⟩).2.2 fun _ => rfl⟩

/-- Claim C5: the returned `ExecutionResult.success` is true exactly when
the retained outcome log contains no outcome with status "failed"; the final
check re-reads the log rather than trusting the per-attempt flag alone. -/
theorem C5_success_iff_no_failed (env : OrchEnv) (plan : TestPlan)
    (sess : Session) :
    (runWorkflow env plan sess).1.success = true ↔
      countFailed (runWorkflow env plan sess).1.execution_details = 0 := by
  unfold runWorkflow
  simp only [Bool.and_eq_true, beq_iff_eq]
  constructor
  · intro h
    exact h.2
  · intro h
    refine ⟨?_, h⟩
    by_contra hns
    have hfalse :
        (workflowGo env plan 3 1 ⟨[], true, sess, 0, [], 0⟩).success = false := by
      revert hns
      cases (workflowGo env plan 3 1 ⟨[], true, sess, 0, [], 0⟩).success <;> simp
    have h1 := workflowGo_success_inv env plan 3 1 ⟨[], true, sess, 0, [], 0⟩
      (by intro hh; simp at hh) hfalse
    omega

/-- Claim C6: within one workflow attempt, the outcome that brings the
per-attempt failure count to 2 is the last outcome of the attempt (any
prefix of the attempt's log holding ≥ 2 failed outcomes is the whole log),
and every step dispatched in the attempt is one of the steps that received
an outcome — no step beyond the abort point is executed. -/
theorem C6_abort_stops_attempt (env : OrchEnv) (w : Nat)
    (steps : List StepRec) (p : List Outcome)
    (hp : p <+: (attemptSteps env w steps 0 0).outcomes)
    (hcnt : 2 ≤ countFailed p) :
    p.length = (attemptSteps env w steps 0 0).outcomes.length ∧
    ∀ d ∈ (attemptSteps env w steps 0 0).disp,
      d.i < (attemptSteps env w steps 0 0).outcomes.length :=
  ⟨attemptSteps_abort_last env w steps 0 0 (by omega) p hp (by omega),
   fun d hd => by simpa using attemptSteps_disp_idx env w steps 0 0 d hd⟩

/-- Witness for C6: two failing steps out of three abort the attempt with a
two-entry log. -/
theorem C6_abort_stops_attempt_witness :
    ((attemptSteps envTwoFails 1 stepsABC 0 0).outcomes <+:
        (attemptSteps envTwoFails 1 stepsABC 0 0).outcomes) ∧
    2 ≤ countFailed (attemptSteps envTwoFails 1 stepsABC 0 0).outcomes ∧
    (attemptSteps envTwoFails 1 stepsABC 0 0).outcomes.length =
      (attemptSteps envTwoFails 1 stepsABC 0 0).outcomes.length ∧
    (attemptSteps envTwoFails 1 stepsABC 0 0).outcomes.length = 2 ∧
    stepsABC.length = 3 :=
  ⟨List.prefix_refl _, by decide,
    (C6_abort_stops_attempt envTwoFails 1 stepsABC _
      (List.prefix_refl _) (by decide)).1,
    by decide, by decide⟩

/-- Claim C7: `execute_step` never lets an exception escape — its dispatch
body returns a structured outcome for every step and environment — and a
step whose (lowercased) action is none of the six known actions yields the
failed outcome naming the unknown action. -/
theorem C7_executor_never_throws (env : ExecEnv) (step : StepRec)
    (h : strLower step.action ∉
      (["navigate", "click", "fill", "verify", "wait", "select"] :
        List String)) :
    execute_step env step =
      { status := "failed"
        message := "Unknown action: " ++ strLower step.action
        execution_time_ms := some env.elapsedMs } ∧
    ∀ env' step', ∃ o, execute_step_body env' step' = PyResult.ok o :=
  ⟨execute_step_unknown env step h, fun env' step' =>
    execute_step_body_ok env' step'⟩

/-- Witness for C7 at Scenario E's "scroll" step. -/
theorem C7_executor_never_throws_witness :
    (strLower stepScroll.action ∉
      (["navigate", "click", "fill", "verify", "wait", "select"] :
        List String)) ∧
    execute_step envExec stepScroll =
      { status := "failed"
        message := "Unknown action: scroll"
        execution_time_ms := some 7 } :=
  ⟨by decide,
    ((C7_executor_never_throws envExec stepScroll (by decide)).1).trans
      (by decide)⟩

/-- Claim C8: every recorded outcome's `attempts_made` is at most 3, at most
3 workflow attempts run, and the total number of executor dispatches is
bounded by 3 x total_steps x 3 — the loop structure is bounded for every
environment and plan. -/
theorem C8_retry_bounds (env : OrchEnv) (plan : TestPlan) (sess : Session) :
    (∀ o ∈ (runWorkflow env plan sess).1.execution_details,
      ∀ x, o.attempts_made = some x → x ≤ 3) ∧
    (runWorkflow env plan sess).2.attemptsUsed ≤ 3 ∧
    (runWorkflow env plan sess).2.disp.length ≤ 3 * plan.steps.length * 3 := by
  refine ⟨?_, ?_, ?_⟩
  · intro o ho x hx
    exact workflowGo_attempts_le env plan 3 1 ⟨[], true, sess, 0, [], 0⟩
      (by intro o ho; simp at ho) o ho x hx
  · exact workflowGo_attemptsUsed_le env plan 3 1 ⟨[], true, sess, 0, [], 0⟩
      (by omega) (by simp)
  · have h := workflowGo_disp_len env plan 3 1 ⟨[], true, sess, 0, [], 0⟩
    simp only [List.length_nil] at h
    show (workflowGo env plan 3 1 ⟨[], true, sess, 0, [], 0⟩).disp.length ≤
      3 * plan.steps.length * 3
    omega

/-- Witness for C8 on Scenario B: the failing step's outcome records
`attempts_made = 3`, within the bound; 3 attempts and 18 dispatches. -/
theorem C8_retry_bounds_witness :
    ((runWorkflow envScenB planB ⟨planB⟩).1.execution_details.getD 1
        (mkWorkflowError 0 "x" 0)).attempts_made = some 3 ∧
    (3 : Nat) ≤ 3 ∧
    (runWorkflow envScenB planB ⟨planB⟩).2.attemptsUsed ≤ 3 ∧
    (runWorkflow envScenB planB ⟨planB⟩).2.disp.length ≤
      3 * planB.steps.length * 3 :=
  ⟨by decide,
    (C8_retry_bounds envScenB planB ⟨planB⟩).1
      ((runWorkflow envScenB planB ⟨planB⟩).1.execution_details.getD 1
        (mkWorkflowError 0 "x" 0)) (by decide) 3 (by decide),
    (C8_retry_bounds envScenB planB ⟨planB⟩).2.1,
    (C8_retry_bounds envScenB planB ⟨planB⟩).2.2⟩

/-- Claim C9: every dispatch of a step to the Action Executor carries
`timeout = 300000` and `retry_count = 3`, whatever the plan supplied. -/
theorem C9_dispatch_overrides (env : OrchEnv) (plan : TestPlan)
    (sess : Session) (d : Dispatch)
    (hd : d ∈ (runWorkflow env plan sess).2.disp) :
    d.step.timeout = 300000 ∧ d.step.retry_count = 3 :=
  workflowGo_disp_fields env plan 3 1 ⟨[], true, sess, 0, [], 0⟩
    (by intro d hd; simp at hd) d hd

/-- Witness for C9: the first dispatch of Scenario B carries the overridden
timeout and retry count even though the plan supplied neither. -/
theorem C9_dispatch_overrides_witness :
    (⟨1, 0, 1, dispatchStep (mkClick "s1")⟩ : Dispatch) ∈
      (runWorkflow envScenB planB ⟨planB⟩).2.disp ∧
    ((⟨1, 0, 1, dispatchStep (mkClick "s1")⟩ : Dispatch).step.timeout =
        300000 ∧
      (⟨1, 0, 1, dispatchStep (mkClick "s1")⟩ : Dispatch).step.retry_count =
        3) :=
  ⟨by decide,
    C9_dispatch_overrides envScenB planB ⟨planB⟩ _ (by decide)⟩

/-- Claim C10: whenever `_navigate` returns a success outcome, its
`execution_time_ms` is the constant 3000, not a measured duration. -/
theorem C10_navigate_success_time (env : NavEnv) (url : String)
    (h : (navigate env url).2.status = "success") :
    (navigate env url).2.execution_time_ms = some 3000 := by
  unfold navigate at h ⊢
  rcases hr : navRetryGo env url 2 0 "networkidle" with ⟨calls, res⟩
  rw [hr] at h
  cases res with
  | raised e => simp [navFailOutcome_status] at h
  | success =>
    cases ht : env.title1 with
    | exn e => simp [ht, navFailOutcome_status] at h
    | ok t =>
      cases hcon : env.content1 with
      | exn e => simp [ht, hcon, navFailOutcome_status] at h
      | ok content =>
        cases hft : env.finalTitle with
        | exn e => simp [ht, hcon, hft, navFailOutcome_status] at h
        | ok ft => simp [ht, hcon, hft]

/-- Witness for C10 on a clean navigation. -/
theorem C10_navigate_success_time_witness :
    (navigate envNavOK "https://x").2.status = "success" ∧
    (navigate envNavOK "https://x").2.execution_time_ms = some 3000 :=
  ⟨by decide, C10_navigate_success_time envNavOK "https://x" (by decide)⟩
